/-
Verification of the Audacity chat/agent-bridge subsystem
(src/chat: PythonBridgeImpl, ChatController, ChatViewModel).

Shallow embedding: strings are lists of characters (`Str`), JSON values are
an inductive type modelling Qt's QJsonValue, the bridge's side effects
(channel sends, stdin writes, action executions) are reified as lists of
`BridgeEvent`s, and the controller/view-model state machines are explicit
state-passing functions.  Each definition is translated from the C++ source
named in its doc comment.
-/
import Mathlib

namespace AudChat

/-- Strings are modelled as lists of characters (std::string / QString /
QByteArray are all byte- or character-sequences for our purposes). -/
abbrev Str := List Char

/-- Convenience: a Lean string literal as a `Str`. -/
def str (s : String) : Str := s.toList

/-! ### Substring search, modelling std::string::find / QString-style search -/

/-- `startsWith s pat` holds when `pat` occurs at position 0 of `s`. -/
def startsWith : Str → Str → Bool
  | _, [] => true
  | [], _ :: _ => false
  | c :: s, p :: ps => c = p && startsWith s ps

/-- First index at which `pat` occurs in `s` (none if it does not occur);
this models `std::string::find` / `QString::indexOf` returning `npos`
respectively `-1` when absent. -/
def strFind (s pat : Str) : Option Nat :=
  if startsWith s pat then some 0
  else
    match s with
    | [] => none
    | _ :: rest => (strFind rest pat).map (fun n => n + 1)

/-! ### Stream framer

Models `PythonBridgeImpl::onProcessReadyRead` (pythonbridge.cpp): the new
chunk is appended to `m_stdoutBuffer`; then, while the buffer contains a
newline, everything before the first newline is extracted as one line and
removed (together with the newline) from the buffer; non-empty lines are
dispatched to `parseResponse`.  The two theorems right after `takeLine`
supply the termination measure of the extraction loop and are needed before
its definition. -/

/-- Split off the first newline-terminated line: `takeLine buf = some (l, r)`
when `buf = l ++ newline ++ r` with `l` newline-free (this is
`indexOf('\n')` / `left(pos)` / `remove(0, pos+1)` on the QByteArray);
`none` when `buf` contains no newline. -/
def takeLine : Str → Option (Str × Str)
  | [] => none
  | c :: rest =>
    if c = '\n' then some ([], rest)
    else
      match takeLine rest with
      | none => none
      | some (l, r) => some (c :: l, r)

theorem takeLine_some_decomp {s l r : Str} (h : takeLine s = some (l, r)) :
    s = l ++ '\n' :: r ∧ '\n' ∉ l := by
  induction s generalizing l with
  | nil => simp [takeLine] at h
  | cons c rest ih =>
    by_cases hc : c = '\n'
    · subst hc
      rw [takeLine, if_pos rfl] at h
      obtain ⟨rfl, rfl⟩ := Prod.mk.injEq .. ▸ Option.some.inj h
      simp
    · rw [takeLine, if_neg hc] at h
      cases htl : takeLine rest with
      | none => rw [htl] at h; simp at h
      | some p =>
        obtain ⟨l', r'⟩ := p
        rw [htl] at h
        obtain ⟨hl, hr⟩ := Prod.mk.injEq .. ▸ Option.some.inj h
        subst hr
        obtain ⟨hdec, hmem⟩ := ih htl
        subst hdec
        cases l with
        | nil => simp at hl
        | cons c0 l0 =>
          injection hl with h1 h2
          subst h1
          subst h2
          refine ⟨rfl, ?_⟩
          simp only [List.mem_cons, not_or]
          exact ⟨fun he => hc he.symm, hmem⟩

theorem takeLine_shrinks {s l r : Str} (h : takeLine s = some (l, r)) :
    r.length < s.length := by
  obtain ⟨hdec, -⟩ := takeLine_some_decomp h
  subst hdec
  simp only [List.length_append, List.length_cons]
  omega

/-- The extraction loop of `onProcessReadyRead`: repeatedly split off the
first complete line until the buffer holds no newline; returns the extracted
lines in order together with the final buffer contents. -/
def extractLoop (buf : Str) : List Str × Str :=
  match h : takeLine buf with
  | none => ([], buf)
  | some (l, r) =>
    have : r.length < buf.length := takeLine_shrinks h
    let p := extractLoop r
    (l :: p.1, p.2)
termination_by buf.length

/-- Re-glue a list of lines (each newline-terminated) followed by a trailing
remainder. -/
def unlines (ls : List Str) : Str := (ls.map (fun l => l ++ ['\n'])).flatten

/-- One invocation of `onProcessReadyRead`: append the chunk to the buffer,
extract every complete line, and dispatch the non-empty ones (the code skips
`line.isEmpty()`).  Returns the dispatched lines in order and the new buffer. -/
def processChunk (buf chunk : Str) : List Str × Str :=
  let p := extractLoop (buf ++ chunk)
  (p.1.filter (fun l => !l.isEmpty), p.2)

/-- A whole sequence of reads: fold `processChunk` over the chunks, starting
from buffer `buf`, collecting all dispatched lines in order. -/
def processChunks (buf : Str) : List Str → List Str × Str
  | [] => ([], buf)
  | c :: cs =>
    let p := processChunk buf c
    let q := processChunks p.2 cs
    (p.1 ++ q.1, q.2)

/-- The non-empty newline-terminated lines of a byte stream, in order. -/
def nonEmptyLines (s : Str) : List Str := (extractLoop s).1.filter (fun l => !l.isEmpty)

/-! ### JSON model (Qt QJsonValue / QJsonObject / QJsonDocument) -/

/-- A QJsonValue.  `undefined` models `QJsonValue::Undefined`, which is what
`QJsonObject::operator[]` yields for a missing key. -/
inductive Json where
  | undefined
  | null
  | bool (b : Bool)
  | num (q : ℚ)
  | str (s : Str)
  | arr (xs : List Json)
  | obj (fields : List (Str × Json))

/-- A JSON object, as a key-value list. -/
abbrev JsonObj := List (Str × Json)

/-- `QJsonObject::operator[]`: value of the first field with the given key,
`Undefined` when the key is absent. -/
def getField : JsonObj → Str → Json
  | [], _ => Json.undefined
  | (k, v) :: rest, name => if k = name then v else getField rest name

/-- `QJsonValue::toString(default)`: the string value, or the default for a
non-string value. -/
def jToString : Json → Str → Str
  | Json.str s, _ => s
  | _, d => d

/-- `QJsonValue::toBool(default)`. -/
def jToBool : Json → Bool → Bool
  | Json.bool b, _ => b
  | _, d => d

/-- `QJsonValue::toInt(default)`: the numeric value when it is integral,
otherwise the default. -/
def jToInt : Json → Int → Int
  | Json.num q, d => if q.den = 1 then q.num else d
  | _, d => d

/-- `QJsonValue::toObject()`: the object's fields, or empty for a non-object. -/
def jToObj : Json → JsonObj
  | Json.obj fields => fields
  | _ => []

/-- `QString::number` on an integer id. -/
def intToStr (n : Int) : Str := (toString n).toList

/-! ### Chat data model (chattypes.h) -/

inductive MessageRole where
  | User
  | Assistant
  | System
deriving DecidableEq

/-- `au::chat::ChatMessage` with its C++ member defaults. -/
structure ChatMessage where
  role : MessageRole := MessageRole.User
  content : Str := []
  timestamp : Str := []
  isPending : Bool := false
  requiresApproval : Bool := false
  approvalId : Str := []
  canUndo : Bool := false
deriving DecidableEq

/-- `au::chat::ApprovalRequest` with its C++ member defaults. -/
structure ApprovalRequest where
  id : Str := []
  description : Str := []
  preview : Str := []
  affectedItems : List Str := []
  currentStep : Int := 0
  totalSteps : Int := 1
  approvalMode : Str := str "batch"
deriving DecidableEq

/-- `muse::Ret` as used here: `make_ret(Ok)` is truthy, `make_ret(InternalError, msg)`
is falsy and carries the message. -/
inductive Ret where
  | ok
  | internalError (msg : Str)
deriving DecidableEq

/-- `Ret::valid()` / conversion to bool. -/
def Ret.success : Ret → Bool
  | Ret.ok => true
  | Ret.internalError _ => false

/-- `Ret::text()`. -/
def Ret.text : Ret → Str
  | Ret.ok => []
  | Ret.internalError m => m

/-! ### Bridge environment and inbound handlers (pythonbridge.cpp) -/

/-- The `IAgentActionExecutor` collaborator: executing an action either
succeeds or reports an error message; plus the `isActionEnabled` query. -/
structure ActionExecutor where
  executeAction : Str → Ret
  isActionEnabled : Str → Bool

/-- Track types (`au::trackedit::TrackType`). -/
inductive TrackType where
  | Undefined
  | Mono
  | Stereo
  | Label
deriving DecidableEq

/-- The anonymous-namespace helper `trackTypeToString` (pythonbridge.cpp). -/
def trackTypeToString : TrackType → Str
  | TrackType.Undefined => str "Undefined"
  | TrackType.Mono => str "Mono"
  | TrackType.Stereo => str "Stereo"
  | TrackType.Label => str "Label"

structure TrackInfo where
  id : Int
  title : Str
  type : TrackType

/-- The `IAgentStateReader` collaborator.  Times are doubles in the source;
they are carried here as rationals, since the bridge only wraps them into
JSON without computing with them. -/
structure StateReader where
  selectionStartTime : ℚ
  selectionEndTime : ℚ
  hasSelection : Bool
  selectedTracks : List Int
  selectedClips : List (Int × Int)
  totalTime : ℚ
  trackList : List TrackInfo
  clipsOnTrack : Int → List (Int × Int)

/-- Outcome of the `get_project_audio_path` branch, which shells out to the
audio-export helper and the filesystem; each constructor corresponds to one
of the code's condition chains (no project / `exportWaveTracksToWav`
returned empty / exported file missing / file not larger than a WAV header /
success with the exported path). -/
inductive AudioExportOutcome where
  | noProject
  | exportFailed
  | fileNotFound
  | fileTooSmall (size : Int)
  | exported (path : Str)

/-- `QString::toLongLong` (base 10): optional sign followed by at least one
digit; `none` models `ok == false`. -/
def toLongLong? (s : Str) : Option Int :=
  let digits := fun (ds : Str) =>
    if ds.isEmpty then (none : Option Nat)
    else if ds.all Char.isDigit then some (ds.foldl (fun a c => a * 10 + c.toNat - 48) 0)
    else none
  match s with
  | '-' :: rest => (digits rest).map (fun n => -(n : Int))
  | '+' :: rest => (digits rest).map (fun n => (n : Int))
  | _ => (digits s).map (fun n => (n : Int))

/-- Everything `PythonBridgeImpl`'s inbound handlers consult: the injected
providers, whether the Python process is running (checked before any write),
the playback-state cursor (for `get_cursor_position`) and the result of the
audio-export side effect. -/
structure BridgeEnv where
  actionExecutor : Option ActionExecutor
  stateReader : Option StateReader
  processRunning : Bool
  playbackPosition : Option ℚ
  audioExport : AudioExportOutcome
  transcriptServiceAvailable : Bool

/-- The observable effects of handling one inbound line: channel sends and
stdin writes, in program order.  `toolResultSent` covers the stdin write of
the `tool_result` request (and its mirror on `m_toolResultReceived`);
`actionExecuted` records the call into the action executor. -/
inductive BridgeEvent where
  | errorOccurred (msg : Str)
  | messageReceived (msg : Str)
  | approvalRequested (req : ApprovalRequest)
  | actionExecuted (actionCode : Str)
  | toolResultSent (callId : Str) (result : JsonObj)
  | transcriptSet

/-- `PythonBridgeImpl::sendToolResult`: if the process is not running the
result is dropped with only a log; otherwise one `tool_result` request is
written for this `call_id`. -/
def sendToolResult (env : BridgeEnv) (callId : Str) (result : JsonObj) : List BridgeEvent :=
  if env.processRunning then [BridgeEvent.toolResultSent callId result] else []

/-- `PythonBridgeImpl::handleToolCall`: without an action executor, reply
immediately with a failure result for the same `call_id`; otherwise execute
the action and reply with a success/failure result. -/
def handleToolCall (env : BridgeEnv) (request : JsonObj) : List BridgeEvent :=
  let callId := jToString (getField request (str "call_id")) []
  let toolName := jToString (getField request (str "tool_name")) []
  let actionCode := jToString (getField request (str "action_code")) []
  match env.actionExecutor with
  | none =>
    sendToolResult env callId
      [(str "call_id", Json.str callId),
       (str "success", Json.bool false),
       (str "error", Json.str (str "Action executor not available"))]
  | some ex =>
    let ret := ex.executeAction actionCode
    let result :=
      [(str "call_id", Json.str callId),
       (str "tool_name", Json.str toolName),
       (str "action_code", Json.str actionCode)] ++
      (if ret.success then
        [(str "success", Json.bool true),
         (str "message", Json.str (str "Action executed successfully"))]
      else
        [(str "success", Json.bool false),
         (str "error", Json.str ret.text)])
    BridgeEvent.actionExecuted actionCode :: sendToolResult env callId result

/-- The closed set of query types recognized by `handleStateQuery`, in
source order. -/
def recognizedQueryTypes : List Str :=
  [str "get_selection_start_time", str "get_selection_end_time",
   str "has_time_selection", str "get_selected_tracks", str "get_selected_clips",
   str "get_cursor_position", str "get_total_project_time", str "get_track_list",
   str "get_clips_on_track", str "get_all_labels", str "action_enabled",
   str "get_project_audio_path"]

/-- A clip key serialized as in the source (`track_id`/`clip_id` as strings). -/
def clipKeyJson (k : Int × Int) : Json :=
  Json.obj [(str "track_id", Json.str (intToStr k.1)),
            (str "clip_id", Json.str (intToStr k.2))]

/-- `PythonBridgeImpl::handleStateQuery`: without a state reader, reply with
a failure result; otherwise dispatch on `query_type` over the closed set of
recognized queries, falling through to an `Unknown query type` failure
result.  The C++ `try`/`catch` around the chain only converts provider
exceptions into failure results and has no counterpart in this total model. -/
def handleStateQuery (env : BridgeEnv) (request : JsonObj) : List BridgeEvent :=
  let callId := jToString (getField request (str "call_id")) []
  let queryType := jToString (getField request (str "query_type")) []
  let params := jToObj (getField request (str "parameters"))
  match env.stateReader with
  | none =>
    sendToolResult env callId
      [(str "call_id", Json.str callId),
       (str "success", Json.bool false),
       (str "error", Json.str (str "State reader not available"))]
  | some reader =>
    let base := [(str "call_id", Json.str callId), (str "query_type", Json.str queryType)]
    let payload : JsonObj :=
      if queryType = str "get_selection_start_time" then
        [(str "success", Json.bool true), (str "value", Json.num reader.selectionStartTime)]
      else if queryType = str "get_selection_end_time" then
        [(str "success", Json.bool true), (str "value", Json.num reader.selectionEndTime)]
      else if queryType = str "has_time_selection" then
        [(str "success", Json.bool true), (str "value", Json.bool reader.hasSelection)]
      else if queryType = str "get_selected_tracks" then
        [(str "success", Json.bool true),
         (str "value", Json.arr (reader.selectedTracks.map (fun t => Json.str (intToStr t))))]
      else if queryType = str "get_selected_clips" then
        [(str "success", Json.bool true),
         (str "value", Json.arr (reader.selectedClips.map clipKeyJson))]
      else if queryType = str "get_cursor_position" then
        match env.playbackPosition with
        | some pos => [(str "success", Json.bool true), (str "value", Json.num pos)]
        | none =>
          [(str "success", Json.bool false),
           (str "error", Json.str (str "Playback state not available"))]
      else if queryType = str "get_total_project_time" then
        [(str "success", Json.bool true), (str "value", Json.num reader.totalTime)]
      else if queryType = str "get_track_list" then
        [(str "success", Json.bool true),
         (str "value", Json.arr (reader.trackList.map (fun t =>
            Json.obj [(str "track_id", Json.str (intToStr t.id)),
                      (str "name", Json.str t.title),
                      (str "type", Json.str (trackTypeToString t.type))])))]
      else if queryType = str "get_clips_on_track" then
        let trackIdStr := jToString (getField params (str "track_id")) []
        if trackIdStr.isEmpty then
          [(str "success", Json.bool false),
           (str "error", Json.str (str "track_id parameter required"))]
        else
          match toLongLong? trackIdStr with
          | none =>
            [(str "success", Json.bool false),
             (str "error", Json.str (str "Invalid track_id format"))]
          | some trackId =>
            [(str "success", Json.bool true),
             (str "value", Json.arr ((reader.clipsOnTrack trackId).map clipKeyJson))]
      else if queryType = str "get_all_labels" then
        [(str "success", Json.bool true), (str "value", Json.arr [])]
      else if queryType = str "action_enabled" then
        let actionCode := jToString (getField params (str "action_code")) []
        if actionCode.isEmpty then
          [(str "success", Json.bool false),
           (str "error", Json.str (str "action_code parameter required"))]
        else
          let enabled := match env.actionExecutor with
            | some ex => ex.isActionEnabled actionCode
            | none => false
          [(str "success", Json.bool true), (str "value", Json.bool enabled)]
      else if queryType = str "get_project_audio_path" then
        match env.audioExport with
        | AudioExportOutcome.noProject =>
          [(str "success", Json.bool false),
           (str "error", Json.str (str "No project available"))]
        | AudioExportOutcome.exportFailed =>
          [(str "success", Json.bool false),
           (str "error", Json.str (str "Failed to export audio from WaveTracks"))]
        | AudioExportOutcome.fileNotFound =>
          [(str "success", Json.bool false),
           (str "error", Json.str (str "Export completed but file not found"))]
        | AudioExportOutcome.fileTooSmall size =>
          [(str "success", Json.bool false),
           (str "error", Json.str (str "Export file is too small (" ++ intToStr size ++
             str " bytes, expected audio data)"))]
        | AudioExportOutcome.exported path =>
          [(str "success", Json.bool true), (str "value", Json.str path)]
      else
        [(str "success", Json.bool false),
         (str "error", Json.str (str "Unknown query type: " ++ queryType))]
    sendToolResult env callId (base ++ payload)

/-- The type-tag dispatch of `PythonBridgeImpl::parseResponse`, applied to a
successfully parsed JSON object.  An unrecognized `type` falls through to
the final branch, which only logs a warning: no event is emitted. -/
def dispatchResponse (env : BridgeEnv) (fields : JsonObj) : List BridgeEvent :=
  let type := jToString (getField fields (str "type")) []
  if type = str "message" then
    let content := jToString (getField fields (str "content")) []
    let canUndo := jToBool (getField fields (str "can_undo")) false
    let messageWithFlag := if canUndo then content ++ str "|canUndo:true" else content
    [BridgeEvent.messageReceived messageWithFlag]
  else if type = str "approval_request" then
    [BridgeEvent.approvalRequested
      { id := jToString (getField fields (str "approval_id")) []
        description := jToString (getField fields (str "description")) []
        preview := jToString (getField fields (str "preview")) []
        currentStep := jToInt (getField fields (str "current_step")) 0
        totalSteps := jToInt (getField fields (str "total_steps")) 1
        approvalMode := jToString (getField fields (str "approval_mode")) (str "batch") }]
  else if type = str "tool_call" then
    handleToolCall env fields
  else if type = str "state_query" then
    handleStateQuery env fields
  else if type = str "error" then
    [BridgeEvent.errorOccurred (jToString (getField fields (str "content")) [])]
  else if type = str "clarification_needed" then
    [BridgeEvent.messageReceived (jToString (getField fields (str "content")) [])]
  else if type = str "transcript_data" then
    if !(jToObj (getField fields (str "transcript"))).isEmpty &&
        env.transcriptServiceAvailable then
      [BridgeEvent.transcriptSet]
    else []
  else []

/-- The inbound top-level `type` tags recognized by `parseResponse`, in
source order. -/
def recognizedResponseTypes : List Str :=
  [str "message", str "approval_request", str "tool_call", str "state_query",
   str "error", str "clarification_needed", str "transcript_data"]

/-- Selects the `toolResultSent` events of a handler's event list. -/
def isToolResultEvent : BridgeEvent → Bool
  | BridgeEvent.toolResultSent _ _ => true
  | _ => false

/-- The result of `QJsonDocument::fromJson` on one line: either a parse
error, or a parsed document (which Qt guarantees is an object or an array;
a top-level scalar is itself a parse error). -/
inductive ParseResult where
  | parseError
  | parsed (doc : Json)

/-- `PythonBridgeImpl::parseResponse` on one framed line: a parse failure
emits an error event and drops the line; a parsed non-object document is
dropped with only a log; a parsed object is dispatched on its `type`. -/
def parseResponse (env : BridgeEnv) : ParseResult → List BridgeEvent
  | ParseResult.parseError =>
    [BridgeEvent.errorOccurred (str "Invalid JSON response from Python service")]
  | ParseResult.parsed doc =>
    match doc with
    | Json.obj fields => dispatchResponse env fields
    | _ => []

/-- Handling a sequence of framed lines: each line is decoded and dispatched
independently, in order (the decoder keeps no state across lines). -/
def parseResponses (env : BridgeEnv) : List ParseResult → List BridgeEvent
  | [] => []
  | l :: ls => parseResponse env l ++ parseResponses env ls

/-! ### ChatController (chatcontroller.cpp) -/

/-- An outbound request written by the controller through the bridge. -/
inductive BridgeCall where
  | sendRequest (message : Str)
  | sendApproval (approvalId : Str) (approved : Bool) (batchMode : Bool)
deriving DecidableEq

/-- The controller's view of `PythonBridge`: each send returns a `Ret`
(`Ok` when the process is running and the write succeeds, an error
otherwise); the functions abstract over the process/write state. -/
structure PythonBridge where
  sendRequestRet : Str → Ret
  sendApprovalRet : Str → Bool → Bool → Ret

/-- The mutable state of `ChatController`. -/
structure ControllerState where
  messages : List ChatMessage := []
  pendingApprovalId : Str := []
deriving DecidableEq

/-- Result of one controller entry point: the returned `Ret`, the state
afterwards, the bridge requests issued, and the `ChatMessage`s emitted on
the `messageReceived` notification channel, in program order. -/
structure ControllerResult where
  ret : Ret
  state : ControllerState
  bridgeCalls : List BridgeCall := []
  notified : List ChatMessage := []

/-- `ChatController::sendMessage`: an empty message returns Ok and does
nothing; otherwise the User entry is appended to the log and emitted before
the bridge send is attempted. -/
def sendMessage (bridge : Option PythonBridge) (st : ControllerState) (message : Str) :
    ControllerResult :=
  if message.isEmpty then
    { ret := Ret.ok, state := st }
  else
    let userMsg : ChatMessage := { role := MessageRole.User, content := message }
    let st' : ControllerState := { st with messages := st.messages ++ [userMsg] }
    match bridge with
    | some b =>
      { ret := b.sendRequestRet message, state := st',
        bridgeCalls := [BridgeCall.sendRequest message], notified := [userMsg] }
    | none =>
      { ret := Ret.internalError (str "PythonBridge not initialized"), state := st',
        notified := [userMsg] }

/-- Truncate a candidate approval id at the first `_step_` marker: the
`baseId` computation in `ChatController::approveOperation`. -/
def truncAtStepMarker (c : Str) : Str :=
  match strFind c (str "_step_") with
  | some stepPos => c.take stepPos
  | none => c

/-- `ChatController::approveOperation`: the candidate id matches on exact
equality or when the pending id occurs at position 0 of the candidate; when
neither holds and a pending id exists, the candidate truncated at the first
`_step_` marker is compared against the pending id.  A non-match returns an
error and changes nothing; a match forwards the decision to the bridge.
The controller's own pending id is not modified on this path. -/
def approveOperation (bridge : Option PythonBridge) (st : ControllerState)
    (approvalId : Str) (approved batchMode : Bool) : ControllerResult :=
  let isMatch0 : Bool :=
    decide (st.pendingApprovalId = approvalId) ||
    decide (strFind approvalId st.pendingApprovalId = some 0)
  let isMatch : Bool :=
    if !isMatch0 && !st.pendingApprovalId.isEmpty then
      decide (st.pendingApprovalId = truncAtStepMarker approvalId)
    else isMatch0
  if !isMatch then
    { ret := Ret.internalError (str "Invalid approval ID"), state := st }
  else
    match bridge with
    | some b =>
      { ret := b.sendApprovalRet approvalId approved batchMode, state := st,
        bridgeCalls := [BridgeCall.sendApproval approvalId approved batchMode] }
    | none =>
      { ret := Ret.internalError (str "PythonBridge not initialized"), state := st }

/-- `ChatController::cancelPendingOperation`: a no-op returning Ok with no
pending id; otherwise the pending id is cleared locally and a rejection
(`approved = false`, default `batchMode = false`) is sent for it. -/
def cancelPendingOperation (bridge : Option PythonBridge) (st : ControllerState) :
    ControllerResult :=
  if st.pendingApprovalId.isEmpty then
    { ret := Ret.ok, state := st }
  else
    let id := st.pendingApprovalId
    let st' : ControllerState := { st with pendingApprovalId := [] }
    match bridge with
    | some b =>
      { ret := b.sendApprovalRet id false false, state := st',
        bridgeCalls := [BridgeCall.sendApproval id false false] }
    | none =>
      { ret := Ret.internalError (str "PythonBridge not initialized"), state := st' }

/-- The literal undo marker suffix `"|canUndo:true"`. -/
def undoMarker : Str := str "|canUndo:true"

/-- `ChatController::onPythonMessage`: strip a `|canUndo:true` marker (first
occurrence onward) from the content and record the flag, then append and
emit the Assistant entry. -/
def onPythonMessage (st : ControllerState) (message : Str) :
    ControllerState × List ChatMessage :=
  let p := strFind message undoMarker
  let content := match p with
    | some flagPos => message.take flagPos
    | none => message
  let canUndo := match p with
    | some _ => true
    | none => false
  let assistantMsg : ChatMessage :=
    { role := MessageRole.Assistant, content := content, canUndo := canUndo }
  ({ st with messages := st.messages ++ [assistantMsg] }, [assistantMsg])

/-- `ChatController::onPythonApprovalRequest`: the new pending id replaces
any existing one; the request is forwarded on the notification channel. -/
def onPythonApprovalRequest (st : ControllerState) (request : ApprovalRequest) :
    ControllerState × List ApprovalRequest :=
  ({ st with pendingApprovalId := request.id }, [request])

/-- `ChatController::onPythonError`: append a System entry with the error
text prefixed. -/
def onPythonError (st : ControllerState) (error : Str) :
    ControllerState × List ChatMessage :=
  let errorMsg : ChatMessage :=
    { role := MessageRole.System, content := str "Error: " ++ error }
  ({ st with messages := st.messages ++ [errorMsg] }, [errorMsg])

/-- The controller's subscriptions (`ChatController::init`): bridge channel
events drive the three handlers above; events the controller is not
subscribed to leave its state unchanged. -/
def controllerConsume (st : ControllerState) : BridgeEvent → ControllerState
  | BridgeEvent.messageReceived m => (onPythonMessage st m).1
  | BridgeEvent.approvalRequested r => (onPythonApprovalRequest st r).1
  | BridgeEvent.errorOccurred e => (onPythonError st e).1
  | _ => st

/-- End-to-end handling of one framed inbound line: decode it in the bridge
and let the controller consume the resulting events in order. -/
def processLine (env : BridgeEnv) (st : ControllerState) (line : ParseResult) :
    ControllerState :=
  (parseResponse env line).foldl controllerConsume st

/-! ### ChatViewModel (chatviewmodel.cpp) -/

/-- The approval-related mutable state of `ChatViewModel` (the message list
and processing flag are untouched by the approval paths). -/
structure ViewModelState where
  pendingApprovalId : Str := []
  approvalDescription : Str := []
  approvalPreview : Str := []
  approvalStepCurrent : Int := 0
  approvalStepTotal : Int := 1
deriving DecidableEq

/-- `ChatViewModel::approveOperation`: a guard returns early without a
controller or with no pending id; otherwise the decision is forwarded to the
controller, and on a successful return the pending approval state is cleared
exactly when the caller rejected, or batch mode is set, or the total step
count is at most 1. -/
def vmApproveOperation (controller : Option (Str → Bool → Bool → Ret))
    (vm : ViewModelState) (approved batchMode : Bool) : ViewModelState :=
  match controller with
  | none => vm
  | some ctrl =>
    if vm.pendingApprovalId.isEmpty then vm
    else
      let ret := ctrl vm.pendingApprovalId approved batchMode
      if ret.success then
        if !approved || batchMode || decide (vm.approvalStepTotal ≤ 1) then
          { pendingApprovalId := [], approvalDescription := [], approvalPreview := [],
            approvalStepCurrent := 0, approvalStepTotal := 1 }
        else vm
      else vm

/-! ### Lemmas about the string and framing primitives -/

theorem startsWith_iff_append (s pat : Str) :
    startsWith s pat = true ↔ ∃ t, s = pat ++ t := by
  induction pat generalizing s with
  | nil => simp [startsWith]
  | cons p ps ih =>
    cases s with
    | nil => simp [startsWith]
    | cons c s =>
      simp only [startsWith, Bool.and_eq_true, decide_eq_true_eq, ih]
      constructor
      · rintro ⟨rfl, t, rfl⟩
        exact ⟨t, rfl⟩
      · rintro ⟨t, ht⟩
        injection ht with h1 h2
        exact ⟨h1, t, h2⟩

theorem strFind_eq_some_zero (s pat : Str) :
    strFind s pat = some 0 ↔ startsWith s pat = true := by
  constructor
  · intro h
    by_contra hsw
    rw [strFind.eq_def, if_neg hsw] at h
    cases s with
    | nil => simp at h
    | cons c rest =>
      simp only [Option.map_eq_some'] at h
      obtain ⟨n, -, hn⟩ := h
      simp at hn
  · intro h
    rw [strFind.eq_def, if_pos h]

theorem startsWith_nil (s : Str) : startsWith s [] = true := by
  cases s <;> rfl

theorem takeLine_isSome_of_mem {s : Str} (h : '\n' ∈ s) : (takeLine s).isSome = true := by
  induction s with
  | nil => simp at h
  | cons c rest ih =>
    rw [takeLine]
    by_cases hc : c = '\n'
    · rw [if_pos hc]; rfl
    · rw [if_neg hc]
      have hm : '\n' ∈ rest := by
        rcases List.mem_cons.mp h with he | hm
        · exact absurd he.symm hc
        · exact hm
      have hs := ih hm
      cases htl : takeLine rest with
      | none => rw [htl] at hs; simp at hs
      | some p => obtain ⟨l, r⟩ := p; rfl

theorem takeLine_mem_of_some {s l r : Str} (h : takeLine s = some (l, r)) :
    '\n' ∈ s := by
  obtain ⟨hdec, -⟩ := takeLine_some_decomp h
  subst hdec
  simp

theorem takeLine_eq_none {s : Str} : takeLine s = none ↔ '\n' ∉ s := by
  constructor
  · intro h hmem
    have hs := takeLine_isSome_of_mem hmem
    rw [h] at hs
    simp at hs
  · intro hmem
    cases h : takeLine s with
    | none => rfl
    | some p =>
      obtain ⟨l, r⟩ := p
      exact absurd (takeLine_mem_of_some h) hmem

theorem takeLine_of_no_newline {l : Str} (r : Str) (hl : '\n' ∉ l) :
    takeLine (l ++ '\n' :: r) = some (l, r) := by
  induction l with
  | nil => simp [takeLine]
  | cons c l0 ih =>
    simp only [List.mem_cons, not_or] at hl
    obtain ⟨hc, hl0⟩ := hl
    rw [List.cons_append, takeLine, if_neg (fun he => hc he.symm), ih hl0]

theorem extractLoop_eq_nil {b : Str} (h : '\n' ∉ b) : extractLoop b = ([], b) := by
  rw [extractLoop.eq_def]
  split
  · rfl
  · rename_i l r heq
    rw [takeLine_eq_none.mpr h] at heq
    exact absurd heq (by simp)

theorem extractLoop_eq_cons {b l r : Str} (h : takeLine b = some (l, r)) :
    extractLoop b = (l :: (extractLoop r).1, (extractLoop r).2) := by
  rw [extractLoop.eq_def]
  split
  · rename_i heq
    rw [heq] at h
    exact absurd h (by simp)
  · rename_i l' r' heq
    rw [heq] at h
    obtain ⟨rfl, rfl⟩ := Prod.mk.injEq .. ▸ Option.some.inj h
    rfl

theorem unlines_nil : unlines [] = [] := rfl

theorem unlines_cons (l : Str) (ls : List Str) :
    unlines (l :: ls) = l ++ '\n' :: unlines ls := by
  simp [unlines]

theorem unlines_append (xs ys : List Str) :
    unlines (xs ++ ys) = unlines xs ++ unlines ys := by
  simp [unlines]

/-- Soundness of the extraction loop: the buffer decomposes into the
extracted lines followed by the final remainder, every extracted line is
newline-free, and so is the remainder. -/
theorem extractLoop_decomp (b : Str) :
    unlines (extractLoop b).1 ++ (extractLoop b).2 = b ∧
    (∀ l ∈ (extractLoop b).1, '\n' ∉ l) ∧ '\n' ∉ (extractLoop b).2 := by
  generalize hn : b.length = n
  induction n using Nat.strong_induction_on generalizing b with
  | _ n ih =>
    cases h : takeLine b with
    | none =>
      have hb : '\n' ∉ b := takeLine_eq_none.mp h
      rw [extractLoop_eq_nil hb]
      simpa [unlines] using hb
    | some p =>
      obtain ⟨l, r⟩ := p
      rw [extractLoop_eq_cons h]
      obtain ⟨hdec, hl⟩ := takeLine_some_decomp h
      have hlt : r.length < n := hn ▸ takeLine_shrinks h
      obtain ⟨ih1, ih2, ih3⟩ := ih r.length hlt r rfl
      refine ⟨?_, ?_, ih3⟩
      · rw [unlines_cons, List.append_assoc, List.cons_append, ih1, hdec]
      · intro x hx
        rcases List.mem_cons.mp hx with rfl | hx
        · exact hl
        · exact ih2 x hx

/-- Completeness: the extraction loop recovers exactly the newline-terminated
lines it was given, leaving the newline-free tail in the buffer. -/
theorem extractLoop_build (ls : List Str) (b : Str)
    (hls : ∀ l ∈ ls, '\n' ∉ l) (hb : '\n' ∉ b) :
    extractLoop (unlines ls ++ b) = (ls, b) := by
  induction ls with
  | nil => rw [unlines_nil, List.nil_append]; exact extractLoop_eq_nil hb
  | cons l ls ih =>
    have hl : '\n' ∉ l := hls l (List.mem_cons_self ..)
    have hls' : ∀ x ∈ ls, '\n' ∉ x := fun x hx => hls x (List.mem_cons_of_mem _ hx)
    rw [unlines_cons, List.append_assoc, List.cons_append,
      extractLoop_eq_cons (takeLine_of_no_newline _ hl), ih hls']

/-- Composition: extracting from a concatenation first drains `s`, then
continues with `s`'s remainder glued onto `t`. -/
theorem extractLoop_append (s t : Str) :
    extractLoop (s ++ t) =
      ((extractLoop s).1 ++ (extractLoop ((extractLoop s).2 ++ t)).1,
       (extractLoop ((extractLoop s).2 ++ t)).2) := by
  obtain ⟨hs1, hs2, hs3⟩ := extractLoop_decomp s
  obtain ⟨ht1, ht2, ht3⟩ := extractLoop_decomp ((extractLoop s).2 ++ t)
  have key : s ++ t =
      unlines ((extractLoop s).1 ++ (extractLoop ((extractLoop s).2 ++ t)).1) ++
        (extractLoop ((extractLoop s).2 ++ t)).2 := by
    rw [unlines_append, List.append_assoc, ht1, ← List.append_assoc, hs1]
  rw [key]
  refine extractLoop_build _ _ ?_ ht3
  intro l hl
  rcases List.mem_append.mp hl with h | h
  · exact hs2 l h
  · exact ht2 l h

theorem processChunks_join (buf : Str) (chunks : List Str) (hbuf : '\n' ∉ buf) :
    processChunks buf chunks =
      (nonEmptyLines (buf ++ chunks.flatten), (extractLoop (buf ++ chunks.flatten)).2) := by
  induction chunks generalizing buf with
  | nil =>
    simp only [processChunks, List.flatten_nil, List.append_nil]
    rw [nonEmptyLines, extractLoop_eq_nil hbuf]
    rfl
  | cons c cs ih =>
    obtain ⟨-, -, hb2⟩ := extractLoop_decomp (buf ++ c)
    have hrec := ih (extractLoop (buf ++ c)).2 hb2
    simp only [processChunks, processChunk, hrec, nonEmptyLines, List.flatten_cons,
      ← List.append_assoc]
    rw [extractLoop_append (buf ++ c) cs.flatten]
    simp [List.filter_append]

theorem isEmpty_eq_false_of_ne {l : Str} (h : l ≠ []) : l.isEmpty = false := by
  cases l with
  | nil => exact absurd rfl h
  | cons a t => rfl

/-! ### Claims -/

/-- Claim C1: after a successful approve call on a pending approval, the
view model's pending approval id is cleared iff the caller rejected, or
batch mode is set, or the total step count is at most 1; on an approved,
non-final step the whole approval state (in particular the pending id) is
retained unchanged. -/
theorem vm_approve_clears_pending_iff (ctrl : Str → Bool → Bool → Ret)
    (vm : ViewModelState) (approved batchMode : Bool)
    (hpend : vm.pendingApprovalId ≠ [])
    (hret : (ctrl vm.pendingApprovalId approved batchMode).success = true) :
    ((vmApproveOperation (some ctrl) vm approved batchMode).pendingApprovalId = [] ↔
      (approved = false ∨ batchMode = true ∨ vm.approvalStepTotal ≤ 1)) ∧
    (approved = true → batchMode = false → 1 < vm.approvalStepTotal →
      vmApproveOperation (some ctrl) vm approved batchMode = vm) := by
  have hne := isEmpty_eq_false_of_ne hpend
  have hiff : (!approved || batchMode || decide (vm.approvalStepTotal ≤ 1)) = true ↔
      (approved = false ∨ batchMode = true ∨ vm.approvalStepTotal ≤ 1) := by
    simp [Bool.or_eq_true, Bool.not_eq_true', or_assoc]
  simp only [vmApproveOperation, hne, Bool.false_eq_true, if_false, hret, if_true]
  by_cases hcond : approved = false ∨ batchMode = true ∨ vm.approvalStepTotal ≤ 1
  · rw [if_pos (hiff.mpr hcond)]
    refine ⟨iff_of_true rfl hcond, fun ha hb ht => ?_⟩
    rcases hcond with h | h | h
    · rw [ha] at h; exact absurd h (by simp)
    · rw [hb] at h; exact absurd h (by simp)
    · omega
  · rw [if_neg (fun h => hcond (hiff.mp h))]
    exact ⟨iff_of_false hpend hcond, fun _ _ _ => rfl⟩

/-- Witness for C1: with `totalSteps = 3`, `currentStep = 1`,
`approved = true`, `batchMode = false` and a controller returning Ok, the
approval state is fully retained. -/
theorem vm_approve_clears_pending_iff_witness :
    vmApproveOperation (some (fun _ _ _ => Ret.ok))
        ⟨str "op1", [], [], 1, 3⟩ true false = ⟨str "op1", [], [], 1, 3⟩ :=
  (vm_approve_clears_pending_iff (fun _ _ _ => Ret.ok) ⟨str "op1", [], [], 1, 3⟩
    true false (by decide) rfl).2 rfl rfl (by decide)

/-- Claim C2: however a byte stream is split into chunks, the framer
dispatches exactly the non-empty newline-terminated lines of the
concatenated stream, in write order, and retains exactly the bytes after
the last newline in its buffer; in particular, when the concatenation is
newline-terminated lines `ls` followed by a newline-free remainder, the
dispatched lines are precisely the non-empty members of `ls` in order. -/
theorem framer_dispatch_invariant (chunks : List Str) :
    ((processChunks [] chunks).1 = nonEmptyLines chunks.flatten ∧
     (processChunks [] chunks).2 = (extractLoop chunks.flatten).2) ∧
    (∀ (ls : List Str) (rest : Str), (∀ l ∈ ls, '\n' ∉ l) → '\n' ∉ rest →
      chunks.flatten = unlines ls ++ rest →
      (processChunks [] chunks).1 = ls.filter (fun l => !l.isEmpty) ∧
      (processChunks [] chunks).2 = rest) := by
  have h := processChunks_join [] chunks (by simp)
  rw [List.nil_append] at h
  have h1 : (processChunks [] chunks).1 = nonEmptyLines chunks.flatten := by rw [h]
  have h2 : (processChunks [] chunks).2 = (extractLoop chunks.flatten).2 := by rw [h]
  refine ⟨⟨h1, h2⟩, fun ls rest hls hrest hflat => ?_⟩
  have hb := extractLoop_build ls rest hls hrest
  constructor
  · rw [h1, hflat, nonEmptyLines, hb]
  · rw [h2, hflat, hb]

/-- Witness for C2: the stream `"abc\nde\n\nx"` split as `"ab"`,`"c\nde"`,
`"\n\nx"` dispatches `"abc"` and `"de"` (the empty line discarded) and
buffers `"x"`. -/
theorem framer_dispatch_invariant_witness :
    (processChunks [] [str "ab", str "c\nde", str "\n\nx"]).1 =
      [str "abc", str "de"] ∧
    (processChunks [] [str "ab", str "c\nde", str "\n\nx"]).2 = str "x" :=
  (framer_dispatch_invariant [str "ab", str "c\nde", str "\n\nx"]).2
    [str "abc", str "de", []] (str "x") (by decide) (by decide) (by decide)

/-- Claim C3: with a non-empty pending approval id, a candidate matches iff
it equals the pending id, or starts with it, or — truncated at the first
`_step_` marker — equals it; a match issues exactly the forwarded approval,
while a non-match returns the synchronous error with the state unchanged
and no bridge request issued. -/
theorem approve_matching (b : PythonBridge) (st : ControllerState)
    (C : Str) (approved batchMode : Bool) (hpend : st.pendingApprovalId ≠ []) :
    ((approveOperation (some b) st C approved batchMode).bridgeCalls =
        [BridgeCall.sendApproval C approved batchMode] ↔
      (C = st.pendingApprovalId ∨ (∃ t, C = st.pendingApprovalId ++ t) ∨
        truncAtStepMarker C = st.pendingApprovalId)) ∧
    (¬(C = st.pendingApprovalId ∨ (∃ t, C = st.pendingApprovalId ++ t) ∨
        truncAtStepMarker C = st.pendingApprovalId) →
      approveOperation (some b) st C approved batchMode =
        { ret := Ret.internalError (str "Invalid approval ID"), state := st,
          bridgeCalls := [], notified := [] }) := by
  have hne := isEmpty_eq_false_of_ne hpend
  have hm0 : (decide (st.pendingApprovalId = C) ||
      decide (strFind C st.pendingApprovalId = some 0)) = true ↔
      (C = st.pendingApprovalId ∨ ∃ t, C = st.pendingApprovalId ++ t) := by
    simp only [Bool.or_eq_true, decide_eq_true_eq, strFind_eq_some_zero,
      startsWith_iff_append]
    exact or_congr eq_comm Iff.rfl
  by_cases h0 : (decide (st.pendingApprovalId = C) ||
      decide (strFind C st.pendingApprovalId = some 0)) = true
  · have hspec : C = st.pendingApprovalId ∨ (∃ t, C = st.pendingApprovalId ++ t) ∨
        truncAtStepMarker C = st.pendingApprovalId := by
      rcases hm0.mp h0 with h | h
      · exact Or.inl h
      · exact Or.inr (Or.inl h)
    have hres : approveOperation (some b) st C approved batchMode =
        { ret := b.sendApprovalRet C approved batchMode, state := st,
          bridgeCalls := [BridgeCall.sendApproval C approved batchMode],
          notified := [] } := by
      simp only [approveOperation, h0, Bool.not_true, Bool.false_and,
        Bool.false_eq_true, if_false]
    rw [hres]
    exact ⟨iff_of_true rfl hspec, fun hn => absurd hspec hn⟩
  · have h0' : (decide (st.pendingApprovalId = C) ||
        decide (strFind C st.pendingApprovalId = some 0)) = false :=
      Bool.eq_false_iff.mpr h0
    by_cases hb : st.pendingApprovalId = truncAtStepMarker C
    · have hspec : C = st.pendingApprovalId ∨ (∃ t, C = st.pendingApprovalId ++ t) ∨
          truncAtStepMarker C = st.pendingApprovalId := Or.inr (Or.inr hb.symm)
      have hres : approveOperation (some b) st C approved batchMode =
          { ret := b.sendApprovalRet C approved batchMode, state := st,
            bridgeCalls := [BridgeCall.sendApproval C approved batchMode],
            notified := [] } := by
        simp only [approveOperation, h0', hne, Bool.not_false, Bool.and_self, if_true,
          decide_eq_true hb, Bool.not_true, Bool.false_eq_true, if_false]
      rw [hres]
      exact ⟨iff_of_true rfl hspec, fun hn => absurd hspec hn⟩
    · have hspec : ¬(C = st.pendingApprovalId ∨ (∃ t, C = st.pendingApprovalId ++ t) ∨
          truncAtStepMarker C = st.pendingApprovalId) := by
        rintro (h | h | h)
        · exact absurd (hm0.mpr (Or.inl h)) h0
        · exact absurd (hm0.mpr (Or.inr h)) h0
        · exact absurd h.symm hb
      have hres : approveOperation (some b) st C approved batchMode =
          { ret := Ret.internalError (str "Invalid approval ID"), state := st,
            bridgeCalls := [], notified := [] } := by
        simp only [approveOperation, h0', hne, Bool.not_false, Bool.and_self, if_true,
          decide_eq_false hb, Bool.not_false, if_true]
      rw [hres]
      refine ⟨iff_of_false (by simp) hspec, fun _ => rfl⟩

/-- Witness for C3: pending id `"abc123"`; candidate `"abc123_step_2"`
matches and is forwarded; candidate `"xyz"` is rejected synchronously with
nothing sent and the state unchanged. -/
theorem approve_matching_witness :
    (approveOperation (some ⟨fun _ => Ret.ok, fun _ _ _ => Ret.ok⟩)
        { messages := [], pendingApprovalId := str "abc123" }
        (str "abc123_step_2") true false).bridgeCalls =
      [BridgeCall.sendApproval (str "abc123_step_2") true false] ∧
    approveOperation (some ⟨fun _ => Ret.ok, fun _ _ _ => Ret.ok⟩)
        { messages := [], pendingApprovalId := str "abc123" } (str "xyz") true false =
      { ret := Ret.internalError (str "Invalid approval ID"),
        state := { messages := [], pendingApprovalId := str "abc123" },
        bridgeCalls := [], notified := [] } :=
  ⟨(approve_matching ⟨fun _ => Ret.ok, fun _ _ _ => Ret.ok⟩
      { messages := [], pendingApprovalId := str "abc123" }
      (str "abc123_step_2") true false (by decide)).1.mpr
      (Or.inr (Or.inr (by decide))),
   (approve_matching ⟨fun _ => Ret.ok, fun _ _ _ => Ret.ok⟩
      { messages := [], pendingApprovalId := str "abc123" }
      (str "xyz") true false (by decide)).2
      (by
        rintro (h | h | h)
        · exact absurd h (by decide)
        · rw [← startsWith_iff_append] at h
          exact absurd h (by decide)
        · exact absurd h (by decide))⟩

/-- Counterexample to C4 as stated: a line that parses successfully to a
non-object JSON document (an array) is dropped with NO error event emitted
(the code only logs), contradicting the claim that a non-object payload
emits an error event. -/
theorem nonobject_payload_silent :
    parseResponse ⟨none, none, true, none, AudioExportOutcome.noProject, false⟩
      (ParseResult.parsed (Json.arr [Json.num 1])) = [] := rfl

/-- Claim C4 (amended): a malformed line is dropped and emits exactly one
error event; a successfully parsed non-object payload (an array — the only
non-object document Qt's parser can produce) is dropped silently, with no
error event; the decoder keeps no state across lines, so the events of a
line sequence are the concatenation of each line's events and a failure on
line K never affects the parsing and dispatch of line K+1. -/
theorem decode_failure_isolation (env : BridgeEnv) :
    (parseResponse env ParseResult.parseError =
      [BridgeEvent.errorOccurred (str "Invalid JSON response from Python service")]) ∧
    (∀ xs : List Json, parseResponse env (ParseResult.parsed (Json.arr xs)) = []) ∧
    (∀ ls₁ ls₂ : List ParseResult,
      parseResponses env (ls₁ ++ ls₂) =
        parseResponses env ls₁ ++ parseResponses env ls₂) := by
  refine ⟨rfl, fun xs => rfl, fun ls₁ ls₂ => ?_⟩
  induction ls₁ with
  | nil => rfl
  | cons l ls ih => simp [parseResponses, ih]

/-- Claim C5: an inbound `state_query` whose `query_type` is outside the
recognized closed set is answered (with the state reader configured and the
process running) by a result carrying the request's `call_id`,
`success = false` and an error message that contains the unrecognized query
type (it is the literal `Unknown query type: ` followed by it); by contrast
an inbound message whose top-level `type` is unrecognized produces no event
at all — no error event and no result. -/
theorem unknown_query_vs_unknown_type :
    (∀ (env : BridgeEnv) (fields : JsonObj) (reader : StateReader),
      env.stateReader = some reader →
      env.processRunning = true →
      jToString (getField fields (str "type")) [] = str "state_query" →
      jToString (getField fields (str "query_type")) [] ∉ recognizedQueryTypes →
      dispatchResponse env fields =
        [BridgeEvent.toolResultSent (jToString (getField fields (str "call_id")) [])
          [(str "call_id", Json.str (jToString (getField fields (str "call_id")) [])),
           (str "query_type", Json.str (jToString (getField fields (str "query_type")) [])),
           (str "success", Json.bool false),
           (str "error", Json.str (str "Unknown query type: " ++
              jToString (getField fields (str "query_type")) []))]]) ∧
    (∀ (env : BridgeEnv) (fields : JsonObj),
      jToString (getField fields (str "type")) [] ∉ recognizedResponseTypes →
      dispatchResponse env fields = []) := by
  constructor
  · intro env fields reader hr hrun ht hq
    simp only [recognizedQueryTypes, List.mem_cons, List.not_mem_nil, not_or] at hq
    obtain ⟨q1, q2, q3, q4, q5, q6, q7, q8, q9, q10, q11, q12, -⟩ := hq
    simp only [dispatchResponse, ht]
    rw [if_pos trivial]
    simp only [handleStateQuery, hr]
    rw [if_neg q1, if_neg q2, if_neg q3, if_neg q4, if_neg q5, if_neg q6, if_neg q7,
      if_neg q8, if_neg q9, if_neg q10, if_neg q11, if_neg q12]
    simp only [sendToolResult, hrun, if_true]
    rw [if_neg (by decide), if_neg (by decide), if_neg (by decide)]
    simp
  · intro env fields ht
    simp only [recognizedResponseTypes, List.mem_cons, List.not_mem_nil, not_or] at ht
    obtain ⟨t1, t2, t3, t4, t5, t6, t7, -⟩ := ht
    simp only [dispatchResponse]
    rw [if_neg t1, if_neg t2, if_neg t3, if_neg t4, if_neg t5, if_neg t6, if_neg t7]

/-- Witness for C5: query type `"unknown_query"` is answered with a failure
result for call id `"q1"`; top-level type `"bogus_kind"` is dropped with no
event. -/
theorem unknown_query_vs_unknown_type_witness :
    dispatchResponse
        ⟨none, some ⟨0, 0, false, [], [], 0, [], fun _ => []⟩, true, none,
          AudioExportOutcome.noProject, false⟩
        [(str "type", Json.str (str "state_query")),
         (str "call_id", Json.str (str "q1")),
         (str "query_type", Json.str (str "unknown_query"))] =
      [BridgeEvent.toolResultSent (str "q1")
        [(str "call_id", Json.str (str "q1")),
         (str "query_type", Json.str (str "unknown_query")),
         (str "success", Json.bool false),
         (str "error", Json.str (str "Unknown query type: unknown_query"))]] ∧
    dispatchResponse
        ⟨none, some ⟨0, 0, false, [], [], 0, [], fun _ => []⟩, true, none,
          AudioExportOutcome.noProject, false⟩
        [(str "type", Json.str (str "bogus_kind"))] = [] :=
  ⟨unknown_query_vs_unknown_type.1
      ⟨none, some ⟨0, 0, false, [], [], 0, [], fun _ => []⟩, true, none,
        AudioExportOutcome.noProject, false⟩
      [(str "type", Json.str (str "state_query")),
       (str "call_id", Json.str (str "q1")),
       (str "query_type", Json.str (str "unknown_query"))]
      ⟨0, 0, false, [], [], 0, [], fun _ => []⟩ rfl rfl (by decide) (by decide),
   unknown_query_vs_unknown_type.2
      ⟨none, some ⟨0, 0, false, [], [], 0, [], fun _ => []⟩, true, none,
        AudioExportOutcome.noProject, false⟩
      [(str "type", Json.str (str "bogus_kind"))] (by decide)⟩

/-- Claim C6: with the process running, every inbound `tool_call` produces
exactly one `tool_result`, tagged with the request's `call_id`; when no
action executor is configured the single result has `success = false` and a
descriptive error for that exact call id, and no action is executed (the
event list is exactly that one result — the call is not dropped). -/
theorem tool_call_exactly_one_result (env : BridgeEnv) (fields : JsonObj)
    (hrun : env.processRunning = true)
    (ht : jToString (getField fields (str "type")) [] = str "tool_call") :
    ((dispatchResponse env fields).filter isToolResultEvent).length = 1 ∧
    (∀ c r, BridgeEvent.toolResultSent c r ∈ dispatchResponse env fields →
      c = jToString (getField fields (str "call_id")) []) ∧
    (env.actionExecutor = none →
      dispatchResponse env fields =
        [BridgeEvent.toolResultSent (jToString (getField fields (str "call_id")) [])
          [(str "call_id",
            Json.str (jToString (getField fields (str "call_id")) [])),
           (str "success", Json.bool false),
           (str "error", Json.str (str "Action executor not available"))]]) := by
  have hd : dispatchResponse env fields = handleToolCall env fields := by
    simp only [dispatchResponse, ht]
    rw [if_pos trivial, if_neg (by decide), if_neg (by decide)]
  rw [hd]
  cases hex : env.actionExecutor with
  | none =>
    have hres : handleToolCall env fields =
        [BridgeEvent.toolResultSent (jToString (getField fields (str "call_id")) [])
          [(str "call_id", Json.str (jToString (getField fields (str "call_id")) [])),
           (str "success", Json.bool false),
           (str "error", Json.str (str "Action executor not available"))]] := by
      simp only [handleToolCall, hex, sendToolResult, hrun, if_true]
    rw [hres]
    refine ⟨rfl, ?_, fun _ => rfl⟩
    intro c r hm
    cases hm with
    | head => rfl
    | tail _ hm2 => exact absurd hm2 (List.not_mem_nil _)
  | some ex =>
    simp only [handleToolCall, hex, sendToolResult, hrun, if_true]
    refine ⟨by simp [isToolResultEvent], ?_, fun hc => Option.noConfusion hc⟩
    intro c r hm
    cases hm with
    | tail _ hm2 =>
      cases hm2 with
      | head => rfl
      | tail _ hm3 => exact absurd hm3 (List.not_mem_nil _)

/-- Witness for C6: a `tool_call` with call id `"t1"` and no action
executor yields exactly one failure result for `"t1"`. -/
theorem tool_call_exactly_one_result_witness :
    ((dispatchResponse
        ⟨none, none, true, none, AudioExportOutcome.noProject, false⟩
        [(str "type", Json.str (str "tool_call")),
         (str "call_id", Json.str (str "t1"))]).filter isToolResultEvent).length = 1 ∧
    dispatchResponse
        ⟨none, none, true, none, AudioExportOutcome.noProject, false⟩
        [(str "type", Json.str (str "tool_call")),
         (str "call_id", Json.str (str "t1"))] =
      [BridgeEvent.toolResultSent (str "t1")
        [(str "call_id", Json.str (str "t1")),
         (str "success", Json.bool false),
         (str "error", Json.str (str "Action executor not available"))]] :=
  ⟨(tool_call_exactly_one_result
      ⟨none, none, true, none, AudioExportOutcome.noProject, false⟩
      [(str "type", Json.str (str "tool_call")),
       (str "call_id", Json.str (str "t1"))] rfl rfl).1,
   (tool_call_exactly_one_result
      ⟨none, none, true, none, AudioExportOutcome.noProject, false⟩
      [(str "type", Json.str (str "tool_call")),
       (str "call_id", Json.str (str "t1"))] rfl rfl).2.2 rfl⟩

/-- Claim C7: cancelling with no pending approval id returns Ok, performs no
bridge call and leaves the state unchanged; cancelling with a pending id
clears it locally (the message log untouched) and sends exactly one
rejection (`approved = false`) to the bridge for that id. -/
theorem cancel_pending_behavior (b : PythonBridge) (st : ControllerState) :
    (st.pendingApprovalId = [] →
      cancelPendingOperation (some b) st =
        { ret := Ret.ok, state := st, bridgeCalls := [], notified := [] }) ∧
    (st.pendingApprovalId ≠ [] →
      cancelPendingOperation (some b) st =
        { ret := b.sendApprovalRet st.pendingApprovalId false false,
          state := { st with pendingApprovalId := [] },
          bridgeCalls := [BridgeCall.sendApproval st.pendingApprovalId false false],
          notified := [] }) := by
  constructor
  · intro h
    simp only [cancelPendingOperation, h]
    rfl
  · intro h
    simp only [cancelPendingOperation, isEmpty_eq_false_of_ne h, Bool.false_eq_true, if_false]

/-- Witness for C7: both branches at concrete states (pending empty, and
pending `"op1"`). -/
theorem cancel_pending_behavior_witness :
    cancelPendingOperation (some ⟨fun _ => Ret.ok, fun _ _ _ => Ret.ok⟩)
        { messages := [], pendingApprovalId := [] } =
      { ret := Ret.ok, state := { messages := [], pendingApprovalId := [] },
        bridgeCalls := [], notified := [] } ∧
    cancelPendingOperation (some ⟨fun _ => Ret.ok, fun _ _ _ => Ret.ok⟩)
        { messages := [], pendingApprovalId := str "op1" } =
      { ret := Ret.ok,
        state := { messages := [], pendingApprovalId := [] },
        bridgeCalls := [BridgeCall.sendApproval (str "op1") false false],
        notified := [] } :=
  ⟨(cancel_pending_behavior ⟨fun _ => Ret.ok, fun _ _ _ => Ret.ok⟩
      { messages := [], pendingApprovalId := [] }).1 rfl,
   (cancel_pending_behavior ⟨fun _ => Ret.ok, fun _ _ _ => Ret.ok⟩
      { messages := [], pendingApprovalId := str "op1" }).2 (by decide)⟩

/-- Claim C8: the inbound line carrying `type` `message` and content
`Trim silence|canUndo:true` appends exactly one Assistant entry with the
marker stripped (`Trim silence`) and `canUndo = true`; a message whose
delivered content does not contain the marker appends an Assistant entry
with the content unchanged and `canUndo = false`. -/
theorem inbound_message_undo_marker (env : BridgeEnv) (st : ControllerState) :
    processLine env st (ParseResult.parsed (Json.obj
        [(str "type", Json.str (str "message")),
         (str "content", Json.str (str "Trim silence|canUndo:true"))])) =
      { st with messages := st.messages ++
          [{ role := MessageRole.Assistant, content := str "Trim silence",
             canUndo := true }] } ∧
    (∀ c : Str, strFind c undoMarker = none →
      processLine env st (ParseResult.parsed (Json.obj
          [(str "type", Json.str (str "message")),
           (str "content", Json.str c)])) =
        { st with messages := st.messages ++
            [{ role := MessageRole.Assistant, content := c, canUndo := false }] }) := by
  constructor
  · have hfind : strFind (str "Trim silence|canUndo:true") undoMarker = some 12 := by
      decide
    have htake : (str "Trim silence|canUndo:true").take 12 = str "Trim silence" := by
      decide
    have hev : parseResponse env (ParseResult.parsed (Json.obj
        [(str "type", Json.str (str "message")),
         (str "content", Json.str (str "Trim silence|canUndo:true"))])) =
        [BridgeEvent.messageReceived (str "Trim silence|canUndo:true")] := rfl
    unfold processLine
    rw [hev]
    simp only [List.foldl, controllerConsume, onPythonMessage, hfind, htake]
  · intro c hc
    have hev : parseResponse env (ParseResult.parsed (Json.obj
        [(str "type", Json.str (str "message")),
         (str "content", Json.str c)])) = [BridgeEvent.messageReceived c] := rfl
    unfold processLine
    rw [hev]
    simp only [List.foldl, controllerConsume, onPythonMessage, hc]

/-- Witness for C8: both the concrete marked line and a marker-free content
(`Hello`) at the empty controller state. -/
theorem inbound_message_undo_marker_witness :
    processLine ⟨none, none, true, none, AudioExportOutcome.noProject, false⟩
        { messages := [], pendingApprovalId := [] }
        (ParseResult.parsed (Json.obj
          [(str "type", Json.str (str "message")),
           (str "content", Json.str (str "Trim silence|canUndo:true"))])) =
      { messages := [{ role := MessageRole.Assistant,
                       content := str "Trim silence",
                       canUndo := true }],
        pendingApprovalId := [] } ∧
    processLine ⟨none, none, true, none, AudioExportOutcome.noProject, false⟩
        { messages := [], pendingApprovalId := [] }
        (ParseResult.parsed (Json.obj
          [(str "type", Json.str (str "message")),
           (str "content", Json.str (str "Hello"))])) =
      { messages := [{ role := MessageRole.Assistant,
                       content := str "Hello",
                       canUndo := false }],
        pendingApprovalId := [] } :=
  ⟨(inbound_message_undo_marker
      ⟨none, none, true, none, AudioExportOutcome.noProject, false⟩
      { messages := [], pendingApprovalId := [] }).1,
   (inbound_message_undo_marker
      ⟨none, none, true, none, AudioExportOutcome.noProject, false⟩
      { messages := [], pendingApprovalId := [] }).2 (str "Hello") (by decide)⟩

/-- Claim C9: with an empty pending approval id, every candidate identifier
matches (the empty pending id occurs at position 0 of any candidate), and
the decision is forwarded to the bridge rather than rejected. -/
theorem approve_empty_pending_matches (b : PythonBridge) (st : ControllerState)
    (C : Str) (approved batchMode : Bool) (hp : st.pendingApprovalId = []) :
    approveOperation (some b) st C approved batchMode =
      { ret := b.sendApprovalRet C approved batchMode, state := st,
        bridgeCalls := [BridgeCall.sendApproval C approved batchMode],
        notified := [] } := by
  have hfind : strFind C [] = some 0 := (strFind_eq_some_zero C []).mpr (startsWith_nil C)
  simp only [approveOperation, hp, hfind]
  simp

/-- Witness for C9: pending id empty, candidate `"anything"` is forwarded. -/
theorem approve_empty_pending_matches_witness :
    approveOperation (some ⟨fun _ => Ret.ok, fun _ _ _ => Ret.ok⟩)
        { messages := [], pendingApprovalId := [] } (str "anything") true false =
      { ret := Ret.ok, state := { messages := [], pendingApprovalId := [] },
        bridgeCalls := [BridgeCall.sendApproval (str "anything") true false],
        notified := [] } :=
  approve_empty_pending_matches ⟨fun _ => Ret.ok, fun _ _ _ => Ret.ok⟩
    { messages := [], pendingApprovalId := [] } (str "anything") true false rfl

/-- Claim C10: a non-empty message is appended to the log as a User entry
and emitted on the notification channel unconditionally — in particular the
entry remains even when the bridge send fails (no bridge, or a bridge whose
send returns an error), since the returned `Ret` is exactly the bridge's
(or the not-initialized error) while the log update does not depend on it;
an empty message returns Ok, appends nothing and contacts no bridge. -/
theorem send_message_behavior (bridge : Option PythonBridge)
    (st : ControllerState) (m : Str) :
    (m ≠ [] →
      (sendMessage bridge st m).state.messages =
          st.messages ++ [{ role := MessageRole.User, content := m }] ∧
      (sendMessage bridge st m).notified =
          [{ role := MessageRole.User, content := m }] ∧
      (sendMessage bridge st m).ret =
        (match bridge with
         | some b => b.sendRequestRet m
         | none => Ret.internalError (str "PythonBridge not initialized"))) ∧
    (m = [] →
      sendMessage bridge st m =
        { ret := Ret.ok, state := st, bridgeCalls := [], notified := [] }) := by
  constructor
  · intro h
    simp only [sendMessage, isEmpty_eq_false_of_ne h, Bool.false_eq_true, if_false]
    cases bridge with
    | none => exact ⟨rfl, rfl, rfl⟩
    | some b => exact ⟨rfl, rfl, rfl⟩
  · intro h
    subst h
    rfl

/-- Witness for C10: a failing bridge still leaves the User entry appended
and notified; the empty message is a no-op. -/
theorem send_message_behavior_witness :
    ((sendMessage (some ⟨fun _ => Ret.internalError (str "Python process not running"),
        fun _ _ _ => Ret.ok⟩) { messages := [], pendingApprovalId := [] }
        (str "hi")).state.messages =
      [{ role := MessageRole.User, content := str "hi" }] ∧
     (sendMessage (some ⟨fun _ => Ret.internalError (str "Python process not running"),
        fun _ _ _ => Ret.ok⟩) { messages := [], pendingApprovalId := [] }
        (str "hi")).notified =
      [{ role := MessageRole.User, content := str "hi" }] ∧
     (sendMessage (some ⟨fun _ => Ret.internalError (str "Python process not running"),
        fun _ _ _ => Ret.ok⟩) { messages := [], pendingApprovalId := [] }
        (str "hi")).ret = Ret.internalError (str "Python process not running")) ∧
    sendMessage (some ⟨fun _ => Ret.internalError (str "Python process not running"),
        fun _ _ _ => Ret.ok⟩) { messages := [], pendingApprovalId := [] } [] =
      { ret := Ret.ok, state := { messages := [], pendingApprovalId := [] },
        bridgeCalls := [], notified := [] } :=
  ⟨(send_message_behavior (some ⟨fun _ => Ret.internalError (str "Python process not running"),
      fun _ _ _ => Ret.ok⟩) { messages := [], pendingApprovalId := [] } (str "hi")).1
      (by decide),
   (send_message_behavior (some ⟨fun _ => Ret.internalError (str "Python process not running"),
      fun _ _ _ => Ret.ok⟩) { messages := [], pendingApprovalId := [] } []).2 rfl⟩

end AudChat
